import Mathlib

/-!
Verification of the response-orchestration core in
`server/api/models/chat/index.post.ts` (chat-ollama).

The handler is shallowly embedded: external collaborators (prisma lookup,
retriever, chat model, MCP clients, tool invocation, the langchain chunk
merger) are passed in as an explicit `Env` of functions, environment
variables as an `EnvVars` record, and the handler is a pure function from
`Env` and `RequestBody` to a trace of collaborator calls plus a response
value.  JavaScript truthiness of optional numbers and strings is modelled
explicitly; JavaScript numbers are modelled as extended rationals (exact
on every input the claims exercise).
-/

namespace ChatHandler

/-- Role of a request message (`role: 'user' | 'assistant'` in `RequestBody`). -/
inductive Role where
  | user
  | assistant
deriving DecidableEq, Repr

/-- One entry of `RequestBody.messages`: role, content, optional `toolCallId`
and the `toolResult` flag.  `toolCallId` is `Option` because the TypeScript
field is optional (`toolCallId?: string`). -/
structure Message where
  role : Role
  content : String
  toolCallId : Option String
  toolResult : Bool
deriving DecidableEq, Repr

/-- The inbound request body.  `knowledgebaseId` is declared `number` in the
TypeScript interface but may be absent at runtime; `none` models absence. -/
structure RequestBody where
  knowledgebaseId : Option Int
  model : String
  family : String
  messages : List Message
  stream : Bool
deriving DecidableEq, Repr

/-- JavaScript truthiness of an optional number: absent (`undefined`) and `0`
are falsy, every other integer is truthy. -/
def numTruthy : Option Int → Bool
  | some n => n != 0
  | none => false

/-- JavaScript truthiness of an optional string: absent and `""` are falsy. -/
def strTruthy : Option String → Bool
  | some s => s ≠ ""
  | none => false

/-- The normalized message variants built by `normalizeMessages`:
`ToolMessage`, `HumanMessage`, `AIMessage` from langchain.  The tool-message
id is `Option String` because the source passes `message.toolCallId!`
(a compile-time non-null assertion with no runtime check), so an absent id
flows through unchanged. -/
inductive NormalizedMessage where
  | tool (content : String) (toolCallId : Option String)
  | human (content : String)
  | ai (content : String)
deriving DecidableEq, Repr

/-- `normalizeMessages` (source lines 78-91): a tool-result turn becomes a
tool message carrying whatever `toolCallId` was supplied, a user turn a
human message, an assistant turn an AI message. -/
def normalizeMessages : List Message → List NormalizedMessage
  | [] => []
  | m :: rest =>
    if m.toolResult then
      .tool m.content m.toolCallId :: normalizeMessages rest
    else
      match m.role with
      | .user => .human m.content :: normalizeMessages rest
      | .assistant => .ai m.content :: normalizeMessages rest

/-- `serializeMessages` (source lines 72-73): newline-joined `role: content`. -/
def roleString : Role → String
  | .user => "user"
  | .assistant => "assistant"

/-- `serializeMessages` (source lines 72-73). -/
def serializeMessages (messages : List Message) : String :=
  String.intercalate "\n" (messages.map (fun m => roleString m.role ++ ": " ++ m.content))

/-- `transformMessages` (source lines 75-76): `[role, content]` pairs. -/
def transformMessages (messages : List Message) : List (String × String) :=
  messages.map (fun m => (roleString m.role, m.content))

/-! ### JavaScript numbers and the calculator tool

JavaScript numbers are IEEE doubles; we model them as extended rationals.
Every operation the calculator claims exercise (small-integer add, subtract,
multiply, exact divide, divide by zero) is exact in IEEE double precision,
so the embedding agrees with the source on those inputs. -/

/-- A JavaScript number: a finite (rational) value, an infinity, or NaN. -/
inductive JSNum where
  | finite (q : ℚ)
  | posInf
  | negInf
  | nan
deriving DecidableEq, Repr

namespace JSNum

/-- JavaScript `+`. -/
def add : JSNum → JSNum → JSNum
  | nan, _ => nan
  | _, nan => nan
  | posInf, negInf => nan
  | negInf, posInf => nan
  | posInf, _ => posInf
  | _, posInf => posInf
  | negInf, _ => negInf
  | _, negInf => negInf
  | finite a, finite b => finite (a + b)

/-- JavaScript binary `-`. -/
def sub : JSNum → JSNum → JSNum
  | nan, _ => nan
  | _, nan => nan
  | posInf, posInf => nan
  | negInf, negInf => nan
  | posInf, _ => posInf
  | negInf, _ => negInf
  | finite _, posInf => negInf
  | finite _, negInf => posInf
  | finite a, finite b => finite (a - b)

/-- JavaScript `*`. -/
def mul : JSNum → JSNum → JSNum
  | nan, _ => nan
  | _, nan => nan
  | posInf, finite b => if b = 0 then nan else if 0 < b then posInf else negInf
  | negInf, finite b => if b = 0 then nan else if 0 < b then negInf else posInf
  | finite a, posInf => if a = 0 then nan else if 0 < a then posInf else negInf
  | finite a, negInf => if a = 0 then nan else if 0 < a then negInf else posInf
  | posInf, posInf => posInf
  | posInf, negInf => negInf
  | negInf, posInf => negInf
  | negInf, negInf => posInf
  | finite a, finite b => finite (a * b)

/-- JavaScript `/`: division by (positive) zero yields an infinity, `0/0`
yields NaN.  (Rationals have no negative zero; the claims only exercise the
positive-zero divisor.) -/
def div : JSNum → JSNum → JSNum
  | nan, _ => nan
  | _, nan => nan
  | posInf, posInf => nan
  | posInf, negInf => nan
  | negInf, posInf => nan
  | negInf, negInf => nan
  | posInf, finite b => if 0 ≤ b then posInf else negInf
  | negInf, finite b => if 0 ≤ b then negInf else posInf
  | finite _, posInf => finite 0
  | finite _, negInf => finite 0
  | finite a, finite b =>
    if b = 0 then
      if a = 0 then nan else if 0 < a then posInf else negInf
    else finite (a / b)

/-- JavaScript template-literal stringification of a number, exact on
integers, infinities and NaN (the only values the claims exercise). -/
def toJSString : JSNum → String
  | nan => "NaN"
  | posInf => "Infinity"
  | negInf => "-Infinity"
  | finite q =>
    if q.den = 1 then
      if 0 ≤ q.num then toString q.num.toNat else "-" ++ toString (-q.num).toNat
    else toString q

end JSNum

/-- The four operations admitted by `calculatorSchema`
(`z.enum(["add", "subtract", "multiply", "divide"])`); the zod schema
rejects anything else before the tool body runs, so the source's trailing
`throw` branch is unreachable. -/
inductive CalcOp where
  | add
  | subtract
  | multiply
  | divide
deriving DecidableEq, Repr

/-- `calculatorTool` (source lines 206-226): computes the operation and
returns the result as a string; division by zero is not guarded. -/
def calculatorTool (operation : CalcOp) (number1 number2 : JSNum) : String :=
  match operation with
  | .add => (number1.add number2).toJSString
  | .subtract => (number1.sub number2).toJSString
  | .multiply => (number1.mul number2).toJSString
  | .divide => (number1.div number2).toJSString

/-! ### Collaborator data -/

/-- A knowledge-base row (`prisma.knowledgeBase.findUnique` result).  The
`embedding` column is nullable; the source passes `knowledgebase.embedding!`
(no runtime check), so the optional value flows to `createEmbeddings`. -/
structure KnowledgeBase where
  id : Int
  name : String
  embedding : Option String
deriving DecidableEq, Repr

/-- An evidence document (langchain `Document`): page content plus opaque
metadata, as returned by the retriever. -/
structure Document where
  pageContent : String
  metadata : String
deriving DecidableEq, Repr

/-- langchain `formatDocumentsAsString`: page contents joined by blank lines. -/
def formatDocumentsAsString (docs : List Document) : String :=
  String.intercalate "\n\n" (docs.map (·.pageContent))

/-- The Cohere-related environment variables read at source lines 129-135,
plus `OPENAI_API_KEY` (line 119).  `none` models an unset variable. -/
structure EnvVars where
  COHERE_API_KEY : Option String
  COHERE_BASE_URL : Option String
  COHERE_MODEL : Option String
  OPENAI_API_KEY : Option String
deriving DecidableEq, Repr

/-- The reranker-configured test (source line 129):
`(process.env.COHERE_API_KEY || process.env.COHERE_BASE_URL) && process.env.COHERE_MODEL`. -/
def rerankerConfigured (e : EnvVars) : Bool :=
  (strTruthy e.COHERE_API_KEY || strTruthy e.COHERE_BASE_URL) && strTruthy e.COHERE_MODEL

/-- Modelled from the spec: `CohereRerank.compressDocuments` lives in
`server/rerank/cohere`, which is not under `src/`.  Per the spec the
reranker "re-scores and truncates to a fixed maximum count"; the re-scoring
call is the collaborator-supplied `score` function, and the result is
truncated to `topN` (the handler passes `topN: 4`, source line 134). -/
def compressDocuments (score : List Document → String → List Document)
    (documents : List Document) (query : String) (topN : Nat) : List Document :=
  (score documents query).take topN

/-- Modelled from the spec: the outcome of `resolveCoreference`
(`server/coref`, not under `src/`).  Per the spec it "returns a standalone
reformulated query string, falling back to the original query verbatim if
the reformulation service returns an empty result or fails" and its failure
"must not abort the request", so a service error is delivered as `failed`
(empty output), never as a thrown exception. -/
inductive CorefOutcome where
  | ok (output : String)
  | failed
deriving DecidableEq, Repr

/-- The `output` field of the reformulation result: a failed call carries no
usable output. -/
def CorefOutcome.output : CorefOutcome → Option String
  | .ok s => some s
  | .failed => none

/-- JavaScript `a || b` on an optional string `a`: falsy (`undefined`, `""`)
selects `b`. -/
def jsOrString : Option String → String → String
  | some s, b => if s = "" then b else s
  | none, b => b

/-- Source line 121: `reformulatedResult.output || query`. -/
def reformulate (result : CorefOutcome) (query : String) : String :=
  jsOrString result.output query

/-! ### Agentic-branch data -/

/-- An externally discovered tool (from `mcpService.listTools()` or
`client.listTools()`): name plus description; its invocation behaviour is
supplied by the environment. -/
structure MCPTool where
  name : String
  description : String
deriving DecidableEq, Repr

/-- A completed tool call exposed by the gathered response
(`gathered.tool_calls`): a name plus opaque identifier and arguments. -/
structure ToolCall where
  name : String
  id : String
  args : String
deriving DecidableEq, Repr

/-- The value returned by `selectedTool.invoke(toolCall)`: the fields the
handler reads (`result.tool_call_id`, `result.content`). -/
structure ToolInvokeResult where
  tool_call_id : String
  content : String
deriving DecidableEq, Repr

/-- One chunk of the agentic model stream; `content` is `none` when
`chunk.content` is `undefined`, otherwise the (already stringified) content
value. -/
structure StreamChunk where
  content : Option String
deriving DecidableEq, Repr

/-- The complete message returned by `llm.invoke` on the agentic path:
content plus the completed tool calls it may contain. -/
structure AgentMessage where
  content : String
  tool_calls : List ToolCall
deriving DecidableEq, Repr

/-- The lookup map built at source lines 265-271:
`normalizedTools.reduce((acc, tool) => { acc[tool.name] = tool; return acc }, {})`.
A JavaScript object write is last-wins, so lookup returns the last tool in
list order bearing the name. -/
def toolsMap (normalizedTools : List MCPTool) (name : String) : Option MCPTool :=
  (normalizedTools.filter (fun t => t.name == name)).getLast?

/-! ### Prompt assembly -/

/-- `SYSTEM_TEMPLATE` (source lines 52-70) rendered by
`PromptTemplate.fromTemplate` with its three slots substituted. -/
def renderTemplate (context chatHistory question : String) : String :=
  "Answer the user\x27s question based on the context below.\nPresent your answer in a structured Markdown format.\n\nIf the context doesn\x27t contain any relevant information to the question, don\x27t make something up and just say \"I don\x27t know\":\n\n<context>\n"
    ++ context
    ++ "\n</context>\n\n<chat_history>\n"
    ++ chatHistory
    ++ "\n</chat_history>\n\n<question>\n"
    ++ question
    ++ "\n</question>\n\nAnswer:\n"

/-! ### Effects, events and responses -/

/-- One collaborator call made by the handler, in program order. -/
inductive Effect where
  | kbLookup (id : Int)
  | createEmbeddings (embedding : Option String)
  | createRetriever (collection : String)
  | createChatModel (model family : String)
  | corefCall (query : String)
  | retrieveCall (query : String)
  | rerankCall (query : String) (docCount : Nat)
  | chatInvokeCall (prompt : String)
  | chatStreamCall (prompt : String)
  | clientListTools
  | mcpListTools
  | agentInvokeCall (msgs : List (String × String))
  | agentStreamCall (msgs : List (String × String))
  | toolInvoke (name : String)
deriving DecidableEq, Repr

/-- An event of the knowledge-base streaming response: either a streamed
assistant chunk or the final `relevant_documents` payload. -/
inductive KBEvent where
  | textDelta (content : String)
  | relevantDocuments (docs : List Document)
deriving DecidableEq, Repr

/-- An event of the agentic streaming response: an assistant chunk (content
may be absent, the source enqueues unconditionally) or a tool result. -/
inductive AgenticEvent where
  | textDelta (content : Option String)
  | toolResult (tool_use_id : String) (content : String)
deriving DecidableEq, Repr

/-- The handler's observable outcome. `crash` models an uncaught TypeScript
runtime error (e.g. indexing the last element of an empty message list). -/
inductive Response where
  | status (code : Nat) (msg : String)
  | json (content : String) (relevant_docs : List Document)
  | jsonSimple (content : String)
  | streamKB (events : List KBEvent)
  | streamAgentic (events : List AgenticEvent)
  | crash
deriving DecidableEq, Repr

/-- All external collaborators of the handler, as pure functions. -/
structure Env where
  lookupKB : Int → Option KnowledgeBase
  coref : String → List NormalizedMessage → Option String → CorefOutcome
  retrieve : String → List Document
  rerankScore : List Document → String → List Document
  chatInvoke : String → String
  chatStream : String → List (Option String)
  vars : EnvVars
  clientTools : List MCPTool
  normalizedTools : List MCPTool
  agentInvoke : List (String × String) → AgentMessage
  agentStream : List (String × String) → List StreamChunk
  gatherToolCalls : List StreamChunk → List ToolCall
  invokeTool : MCPTool → ToolCall → ToolInvokeResult

/-! ### The handler -/

/-- The knowledge-base streaming generator (source lines 177-195): one
`textDelta` per chunk whose content is defined, then the
`relevant_documents` payload carrying the (possibly reranked) documents. -/
def kbStreamEvents (chunks : List (Option String)) (rerankedDocuments : List Document) :
    List KBEvent :=
  chunks.filterMap (fun c => c.map KBEvent.textDelta) ++
    [KBEvent.relevantDocuments rerankedDocuments]

/-- The agentic stream's chunk loop (source lines 300-320): every chunk is
enqueued as an assistant message carrying `chunk?.content` verbatim. -/
def agenticChunkLoop : List StreamChunk → List AgenticEvent
  | [] => []
  | c :: rest => AgenticEvent.textDelta c.content :: agenticChunkLoop rest

/-- The agentic stream's tool-call loop (source lines 323-344): each
completed tool call is looked up in `toolsMap`; if found the tool is
invoked and its result enqueued, otherwise the call is silently skipped. -/
def agenticToolLoop (invoke : MCPTool → ToolCall → ToolInvokeResult)
    (normalizedTools : List MCPTool) :
    List ToolCall → List Effect × List AgenticEvent
  | [] => ([], [])
  | tc :: rest =>
    match toolsMap normalizedTools tc.name with
    | some t =>
      (Effect.toolInvoke tc.name :: (agenticToolLoop invoke normalizedTools rest).1,
        AgenticEvent.toolResult (invoke t tc).tool_call_id (invoke t tc).content ::
          (agenticToolLoop invoke normalizedTools rest).2)
    | none => agenticToolLoop invoke normalizedTools rest

/-- The knowledge-base branch (source lines 96-196), entered when
`knowledgebaseId` is truthy. -/
def handleKB (env : Env) (body : RequestBody) (kbId : Int) : List Effect × Response :=
  match env.lookupKB kbId with
  | none =>
    ([Effect.kbLookup kbId],
      Response.status 404 ("Knowledge base with id " ++ toString kbId ++ " not found"))
  | some kb =>
    let setupTrace : List Effect :=
      [Effect.kbLookup kbId, Effect.createEmbeddings kb.embedding,
        Effect.createRetriever ("collection_" ++ toString kb.id),
        Effect.createChatModel body.model body.family]
    match body.messages.getLast? with
    | none => (setupTrace, Response.crash)
    | some lastMsg =>
      let query := lastMsg.content
      let reformulatedResult :=
        env.coref query (normalizeMessages body.messages) env.vars.OPENAI_API_KEY
      let reformulatedQuery := reformulate reformulatedResult query
      let relevant_docs := env.retrieve reformulatedQuery
      let rerankedDocuments :=
        if rerankerConfigured env.vars then
          compressDocuments env.rerankScore relevant_docs reformulatedQuery 4
        else relevant_docs
      let rerankTrace : List Effect :=
        if rerankerConfigured env.vars then
          [Effect.rerankCall reformulatedQuery relevant_docs.length]
        else []
      let chatHistory := serializeMessages body.messages
      let prompt := renderTemplate (formatDocumentsAsString rerankedDocuments) chatHistory query
      let trace := setupTrace ++
        [Effect.corefCall query, Effect.retrieveCall reformulatedQuery] ++ rerankTrace
      if body.stream then
        let chunks := env.chatStream prompt
        (trace ++ [Effect.chatStreamCall prompt],
          Response.streamKB (kbStreamEvents chunks rerankedDocuments))
      else
        (trace ++ [Effect.chatInvokeCall prompt],
          Response.json (env.chatInvoke prompt) relevant_docs)

/-- The chunks produced by `llm.stream` on the agentic path (source
line 290). -/
def agenticChunks (env : Env) (body : RequestBody) : List StreamChunk :=
  env.agentStream (transformMessages body.messages)

/-- The completed tool calls exposed by the gathered response after the
stream is exhausted (`gathered?.tool_calls`, source line 323): with no
chunks, `gathered` stays `undefined` and no tool calls are seen. -/
def agenticToolCalls (env : Env) (body : RequestBody) : List ToolCall :=
  if (agenticChunks env body).isEmpty then []
  else env.gatherToolCalls (agenticChunks env body)

/-- The agentic branch (source lines 197-349), entered when
`knowledgebaseId` is falsy. -/
def handleAgentic (env : Env) (body : RequestBody) : List Effect × Response :=
  let setupTrace : List Effect :=
    [Effect.clientListTools, Effect.createChatModel body.model body.family,
      Effect.mcpListTools]
  let msgs := transformMessages body.messages
  if body.stream then
    (setupTrace ++ [Effect.agentStreamCall msgs] ++
        (agenticToolLoop env.invokeTool env.normalizedTools (agenticToolCalls env body)).1,
      Response.streamAgentic
        (agenticChunkLoop (agenticChunks env body) ++
          (agenticToolLoop env.invokeTool env.normalizedTools (agenticToolCalls env body)).2))
  else
    (setupTrace ++ [Effect.agentInvokeCall msgs],
      Response.jsonSimple (env.agentInvoke msgs).content)

/-- The event handler (source lines 93-350): branch dispatch is by
JavaScript truthiness of `knowledgebaseId`. -/
def handler (env : Env) (body : RequestBody) : List Effect × Response :=
  if numTruthy body.knowledgebaseId then
    handleKB env body (body.knowledgebaseId.getD 0)
  else
    handleAgentic env body

/-! ### Observers used by the claims -/

/-- The document payload of a knowledge-base stream event, if any. -/
def KBEvent.docsPayload : KBEvent → Option (List Document)
  | .relevantDocuments d => some d
  | .textDelta _ => none

/-- The evidence-document set a response carries: the `relevant_docs` field
of a non-streaming body, or the payload of the `relevant_documents` event of
a streaming body. -/
def responseEvidence : Response → Option (List Document)
  | .json _ docs => some docs
  | .streamKB events => (events.filterMap KBEvent.docsPayload).getLast?
  | _ => none

/-- Whether an agentic event is a streamed assistant chunk. -/
def AgenticEvent.isTextDelta : AgenticEvent → Bool
  | .textDelta _ => true
  | .toolResult _ _ => false

/-- Whether an agentic event is a tool result. -/
def AgenticEvent.isToolRes : AgenticEvent → Bool
  | .textDelta _ => false
  | .toolResult _ _ => true

/-- No assistant chunk is emitted after the first tool-result event. -/
def noTextDeltaAfterToolRes : List AgenticEvent → Bool
  | [] => true
  | AgenticEvent.textDelta _ :: rest => noTextDeltaAfterToolRes rest
  | AgenticEvent.toolResult _ _ :: rest => rest.all (fun e => !e.isTextDelta)

/-- Whether an effect is a tool invocation. -/
def Effect.isToolInvoke : Effect → Bool
  | .toolInvoke _ => true
  | _ => false

/-- The query string the knowledge-base branch hands to the retriever:
the reformulation result, falling back to the last message's content
(source lines 113-124). -/
def retrievalQuery (env : Env) (body : RequestBody) (lastMsg : Message) : String :=
  reformulate
    (env.coref lastMsg.content (normalizeMessages body.messages) env.vars.OPENAI_API_KEY)
    lastMsg.content

/-- The event the stream emits for one resolved tool call (source
lines 329-341). -/
def toolResultEvent (env : Env) (t : MCPTool) (tc : ToolCall) : AgenticEvent :=
  AgenticEvent.toolResult (env.invokeTool t tc).tool_call_id (env.invokeTool t tc).content

/-- A concrete environment in which every collaborator answers trivially;
witnesses below override the fields they exercise. -/
def baseEnv : Env where
  lookupKB := fun _ => none
  coref := fun _ _ _ => .failed
  retrieve := fun _ => []
  rerankScore := fun docs _ => docs
  chatInvoke := fun _ => "answer"
  chatStream := fun _ => []
  vars := ⟨none, none, none, none⟩
  clientTools := []
  normalizedTools := []
  agentInvoke := fun _ => ⟨"", []⟩
  agentStream := fun _ => []
  gatherToolCalls := fun _ => []
  invokeTool := fun _ tc => ⟨tc.id, ""⟩

/-! ### Supporting lemmas -/

theorem agenticChunkLoop_eq_map (chunks : List StreamChunk) :
    agenticChunkLoop chunks = chunks.map (fun c => AgenticEvent.textDelta c.content) := by
  induction chunks with
  | nil => rfl
  | cons c rest ih => simp [agenticChunkLoop, ih]

theorem agenticToolLoop_events_eq_filterMap (invoke : MCPTool → ToolCall → ToolInvokeResult)
    (tools : List MCPTool) (tcs : List ToolCall) :
    (agenticToolLoop invoke tools tcs).2 =
      tcs.filterMap (fun tc =>
        (toolsMap tools tc.name).map (fun t =>
          AgenticEvent.toolResult (invoke t tc).tool_call_id (invoke t tc).content)) := by
  induction tcs with
  | nil => rfl
  | cons tc rest ih =>
    cases htm : toolsMap tools tc.name with
    | some t => simp [agenticToolLoop, htm, ih]
    | none => simp [agenticToolLoop, htm, ih]

theorem agenticToolLoop_effects (invoke : MCPTool → ToolCall → ToolInvokeResult)
    (tools : List MCPTool) (tcs : List ToolCall) :
    ∀ e ∈ (agenticToolLoop invoke tools tcs).1, e.isToolInvoke = true := by
  induction tcs with
  | nil => simp [agenticToolLoop]
  | cons tc rest ih =>
    intro e he
    cases htm : toolsMap tools tc.name with
    | some t =>
      rw [agenticToolLoop, htm] at he
      rcases List.mem_cons.mp he with h | h
      · subst h; rfl
      · exact ih e h
    | none =>
      rw [agenticToolLoop, htm] at he
      exact ih e he

theorem agenticToolLoop_events_toolRes (invoke : MCPTool → ToolCall → ToolInvokeResult)
    (tools : List MCPTool) (tcs : List ToolCall) :
    ∀ e ∈ (agenticToolLoop invoke tools tcs).2, e.isToolRes = true := by
  induction tcs with
  | nil => simp [agenticToolLoop]
  | cons tc rest ih =>
    intro e he
    cases htm : toolsMap tools tc.name with
    | some t =>
      rw [agenticToolLoop, htm] at he
      rcases List.mem_cons.mp he with h | h
      · subst h; rfl
      · exact ih e h
    | none =>
      rw [agenticToolLoop, htm] at he
      exact ih e he

theorem noTextDeltaAfterToolRes_append (xs ys : List AgenticEvent)
    (hx : ∀ e ∈ xs, e.isTextDelta = true) (hy : ∀ e ∈ ys, e.isToolRes = true) :
    noTextDeltaAfterToolRes (xs ++ ys) = true := by
  induction xs with
  | nil =>
    cases ys with
    | nil => rfl
    | cons y rest =>
      have hyy := hy y (List.mem_cons_self _ _)
      cases y with
      | textDelta c => simp [AgenticEvent.isToolRes] at hyy
      | toolResult i c =>
        simp only [List.nil_append, noTextDeltaAfterToolRes]
        rw [List.all_eq_true]
        intro e he
        have := hy e (List.mem_cons_of_mem _ he)
        cases e with
        | textDelta c2 => simp [AgenticEvent.isToolRes] at this
        | toolResult i2 c2 => rfl
  | cons x rest ih =>
    have hxx := hx x (List.mem_cons_self _ _)
    cases x with
    | toolResult i c => simp [AgenticEvent.isTextDelta] at hxx
    | textDelta c =>
      simp only [List.cons_append, noTextDeltaAfterToolRes]
      exact ih (fun e he => hx e (List.mem_cons_of_mem _ he))

theorem filterMap_length_of_isSome {α β : Type} (f : α → Option β) (l : List α)
    (h : ∀ a ∈ l, (f a).isSome = true) : (l.filterMap f).length = l.length := by
  induction l with
  | nil => rfl
  | cons a rest ih =>
    have ha := h a (List.mem_cons_self _ _)
    cases hfa : f a with
    | none => rw [hfa] at ha; simp at ha
    | some b =>
      have ihh := ih (fun x hx => h x (List.mem_cons_of_mem _ hx))
      simp [List.filterMap_cons, hfa, ihh]

/-! ### Claims -/

/-- C8: the calculator tool returns `"2"` for `divide 6 3` and `"Infinity"`
for `divide 1 0`; division by zero is not specially guarded and no error is
raised (the function totally returns a string for every admitted
operation). -/
theorem calculator_divide_exact_and_by_zero :
    calculatorTool .divide (.finite 6) (.finite 3) = "2" ∧
    calculatorTool .divide (.finite 1) (.finite 0) = "Infinity" := by
  constructor
  · have h : (JSNum.finite 6).div (.finite 3) = .finite 2 := by
      simp [JSNum.div]; norm_num
    simp [calculatorTool, h, JSNum.toJSString]; rfl
  · have h : (JSNum.finite 1).div (.finite 0) = .posInf := by
      simp [JSNum.div]
    simp [calculatorTool, h, JSNum.toJSString]

/-- C9: branch selection is by JavaScript truthiness of `knowledgebaseId`:
a request whose id is `0` (or absent) takes the agentic branch and performs
no knowledge-base lookup. -/
theorem falsy_kb_id_takes_agentic_branch (env : Env) (body : RequestBody)
    (h : body.knowledgebaseId = some 0 ∨ body.knowledgebaseId = none) :
    handler env body = handleAgentic env body ∧
    ∀ i, Effect.kbLookup i ∉ (handler env body).1 := by
  have hfalse : numTruthy body.knowledgebaseId = false := by
    rcases h with h | h <;> simp [h, numTruthy]
  have h1 : handler env body = handleAgentic env body := by
    simp [handler, hfalse]
  refine ⟨h1, fun i hmem => ?_⟩
  rw [h1] at hmem
  cases hs : body.stream with
  | false => simp [handleAgentic, hs] at hmem
  | true =>
    simp [handleAgentic, hs] at hmem
    have := agenticToolLoop_effects env.invokeTool env.normalizedTools
      (agenticToolCalls env body) _ hmem
    simp [Effect.isToolInvoke] at this

/-- C9 witness: with id `0` the concrete request takes the agentic branch. -/
theorem falsy_kb_id_takes_agentic_branch_witness :
    handler baseEnv ⟨some 0, "llama3", "ollama", [], false⟩ =
      handleAgentic baseEnv ⟨some 0, "llama3", "ollama", [], false⟩ :=
  (falsy_kb_id_takes_agentic_branch baseEnv _ (Or.inl rfl)).1

/-- C3: a request whose `knowledgebaseId` matches no stored knowledge base
produces exactly a single 404 response with a descriptive message, and the
collaborator trace is exactly the lookup — no embedding, retrieval or model
invocation happens. -/
theorem unknown_kb_404 (env : Env) (body : RequestBody) (n : Int)
    (hid : body.knowledgebaseId = some n) (hn : n ≠ 0)
    (hkb : env.lookupKB n = none) :
    handler env body =
      ([Effect.kbLookup n],
        Response.status 404 ("Knowledge base with id " ++ toString n ++ " not found")) := by
  simp [handler, hid, numTruthy, bne_iff_ne, hn, handleKB, hkb]

/-- C3 witness: id `999999` with an empty store yields the lone 404. -/
theorem unknown_kb_404_witness :
    handler baseEnv ⟨some 999999, "llama3", "ollama", [], false⟩ =
      ([Effect.kbLookup 999999],
        Response.status 404 "Knowledge base with id 999999 not found") := by
  have := unknown_kb_404 baseEnv ⟨some 999999, "llama3", "ollama", [], false⟩ 999999
    rfl (by decide) rfl
  simpa using this

/-- C7 counterexample: a tool-result turn with an absent `toolCallId` does
not fail the request — the normalizer silently constructs a tool message
carrying the absent id. -/
theorem normalizer_missing_id_constructs_cex :
    normalizeMessages [⟨Role.user, "tool output", none, true⟩] =
      [NormalizedMessage.tool "tool output" none] := by decide

/-- C7 amended: the normalizer performs no validation of `toolCallId`; every
turn marked as a tool result is converted to a tool-result message carrying
whatever (possibly absent) `toolCallId` the caller supplied, and no
`InvalidRequest` failure exists on this path. -/
theorem normalizer_toolResult_passthrough (messages : List Message) (m : Message)
    (hm : m ∈ messages) (ht : m.toolResult = true) :
    NormalizedMessage.tool m.content m.toolCallId ∈ normalizeMessages messages := by
  induction messages with
  | nil => cases hm
  | cons x rest ih =>
    rcases List.mem_cons.mp hm with h | h
    · subst h
      simp [normalizeMessages, ht]
    · by_cases hx : x.toolResult
      · rw [normalizeMessages, if_pos hx]
        exact List.mem_cons_of_mem _ (ih h)
      · rw [normalizeMessages, if_neg hx]
        cases hr : x.role <;> exact List.mem_cons_of_mem _ (ih h)

/-- C7 amended witness: a concrete tool-result turn without a call id is
normalized into a tool message with the absent id. -/
theorem normalizer_toolResult_passthrough_witness :
    NormalizedMessage.tool "result text" none ∈
      normalizeMessages
        [⟨Role.user, "hi", none, false⟩, ⟨Role.user, "result text", none, true⟩] :=
  normalizer_toolResult_passthrough _ ⟨Role.user, "result text", none, true⟩
    (by decide) rfl

/-- Environment for the C6 counterexample: the model's non-streaming reply
contains a completed tool call whose tool is present in the catalog map. -/
def envC6 : Env :=
  { baseEnv with
    agentInvoke := fun _ =>
      ⟨"The weather is sunny", [⟨"get_weather", "call1", "city=paris"⟩]⟩,
    normalizedTools := [⟨"get_weather", "gets the weather"⟩] }

/-- Request for the C6 counterexample: agentic path, non-streaming. -/
def bodyC6 : RequestBody :=
  ⟨none, "m", "f", [⟨Role.user, "weather?", none, false⟩], false⟩

/-- C6 counterexample: the non-streaming agentic reply contains a completed
tool call and the named tool is present in the catalog map, yet the
collaborator trace contains no tool invocation — the tool call is never
resolved, refuting the claim's "each tool call is resolved by looking up
the tool by name in the catalog map and invoking it". -/
theorem nostream_agentic_no_resolution_cex :
    (envC6.agentInvoke (transformMessages bodyC6.messages)).tool_calls =
      [⟨"get_weather", "call1", "city=paris"⟩] ∧
    toolsMap envC6.normalizedTools "get_weather" =
      some ⟨"get_weather", "gets the weather"⟩ ∧
    handler envC6 bodyC6 =
      ([Effect.clientListTools, Effect.createChatModel "m" "f", Effect.mcpListTools,
        Effect.agentInvokeCall [("user", "weather?")]],
        Response.jsonSimple "The weather is sunny") := by
  decide

/-- C6 amended: on the non-streaming agentic path the handler performs no
tool resolution at all — completed tool calls in the reply are ignored, no
tool is looked up or invoked, and the response body carries only the
initial message content. -/
theorem nostream_agentic_returns_initial_content (env : Env) (body : RequestBody)
    (hid : numTruthy body.knowledgebaseId = false) (hs : body.stream = false) :
    (handler env body).2 =
      Response.jsonSimple (env.agentInvoke (transformMessages body.messages)).content ∧
    ∀ e ∈ (handler env body).1, e.isToolInvoke = false := by
  have h1 : handler env body = handleAgentic env body := by simp [handler, hid]
  rw [h1]
  constructor
  · simp [handleAgentic, hs]
  · intro e he
    simp [handleAgentic, hs] at he
    rcases he with rfl | rfl | rfl | rfl <;> rfl

/-- C6 amended witness: the concrete run returns only the initial content. -/
theorem nostream_agentic_returns_initial_content_witness :
    (handler envC6 bodyC6).2 = Response.jsonSimple "The weather is sunny" :=
  ((nostream_agentic_returns_initial_content envC6 bodyC6 rfl rfl).1).trans (by decide)

/-- Environment for the C4 counterexample: the stream's gathered response
contains a completed `calculator` tool call, and no external tool is
discovered. -/
def envC4 : Env :=
  { baseEnv with
    agentStream := fun _ => [⟨some "Let me compute"⟩],
    gatherToolCalls := fun _ => [⟨"calculator", "call1", "divide 6 3"⟩] }

/-- Request for the C4 counterexample: agentic path, streaming. -/
def bodyC4 : RequestBody :=
  ⟨none, "m", "f", [⟨Role.user, "compute 6 divided by 3", none, false⟩], true⟩

/-- C4 counterexample: the name→invoker map is built from the MCP service's
discovered tools only; with none discovered it does not contain the
built-in calculator, and a completed `calculator` tool call is silently
skipped — no invocation effect and no tool-result event. -/
theorem calculator_not_in_toolsMap_cex :
    toolsMap (Env.normalizedTools envC4) "calculator" = none ∧
    handler envC4 bodyC4 =
      ([Effect.clientListTools, Effect.createChatModel "m" "f", Effect.mcpListTools,
        Effect.agentStreamCall [("user", "compute 6 divided by 3")]],
        Response.streamAgentic [AgenticEvent.textDelta (some "Let me compute")]) := by
  decide

/-- C4 amended: the name→invoker map contains exactly the externally
discovered tools (from the MCP service), keyed by tool name: every
discovered tool's name is a key, every hit is a discovered tool bearing the
looked-up name, and `calculator` is absent from the map whenever no
discovered tool carries that name — the built-in calculator tool is never
registered. -/
theorem toolsMap_contains_exactly_discovered (tools : List MCPTool) :
    (∀ t ∈ tools, ∃ t2, toolsMap tools t.name = some t2 ∧ t2 ∈ tools ∧ t2.name = t.name) ∧
    (∀ name t2, toolsMap tools name = some t2 → t2 ∈ tools ∧ t2.name = name) ∧
    ((∀ t ∈ tools, t.name ≠ "calculator") → toolsMap tools "calculator" = none) := by
  refine ⟨?_, ?_, ?_⟩
  · intro t ht
    have hne : tools.filter (fun t2 => t2.name == t.name) ≠ [] := by
      intro hnil
      have : t ∈ tools.filter (fun t2 => t2.name == t.name) :=
        List.mem_filter.mpr ⟨ht, by simp⟩
      rw [hnil] at this
      cases this
    have hsome : (tools.filter (fun t2 => t2.name == t.name)).getLast?.isSome :=
      List.getLast?_isSome.mpr hne
    cases hget : (tools.filter (fun t2 => t2.name == t.name)).getLast? with
    | none => rw [hget] at hsome; cases hsome
    | some t2 =>
      have hmem := List.mem_of_mem_getLast? hget
      have := List.mem_filter.mp hmem
      exact ⟨t2, hget, this.1, by simpa using this.2⟩
  · intro name t2 h
    have hmem := List.mem_of_mem_getLast? h
    have := List.mem_filter.mp hmem
    exact ⟨this.1, by simpa using this.2⟩
  · intro hnone
    have : tools.filter (fun t2 => t2.name == "calculator") = [] := by
      rw [List.filter_eq_nil_iff]
      intro t ht
      simpa using hnone t ht
    rw [toolsMap, this]
    rfl

/-- C4 amended witness: with one discovered tool the map resolves its name
and does not resolve `calculator`. -/
theorem toolsMap_contains_exactly_discovered_witness :
    toolsMap [⟨"get_weather", "gets the weather"⟩] "get_weather" =
      some ⟨"get_weather", "gets the weather"⟩ ∧
    toolsMap [⟨"get_weather", "gets the weather"⟩] "calculator" = none := by
  constructor
  · obtain ⟨t2, h1, _, _⟩ :=
      (toolsMap_contains_exactly_discovered [⟨"get_weather", "gets the weather"⟩]).1
        ⟨"get_weather", "gets the weather"⟩ (by decide)
    rw [h1]
    have := (toolsMap_contains_exactly_discovered [⟨"get_weather", "gets the weather"⟩]).2.1
      "get_weather" t2 h1
    obtain ⟨hmem, hname⟩ := this
    rcases List.mem_singleton.mp hmem with rfl
    rfl
  · exact (toolsMap_contains_exactly_discovered [⟨"get_weather", "gets the weather"⟩]).2.2
      (by decide)

/-- C5: on the streaming agentic path the emitted event sequence is exactly
one assistant chunk event per model chunk, in arrival order, followed by
the tool-result events of the resolvable completed tool calls in completion
order; no chunk event follows a tool-result event, and when every completed
call resolves in the map there are exactly as many tool-result events as
completed calls. -/
theorem streaming_agentic_event_order (env : Env) (body : RequestBody)
    (hid : numTruthy body.knowledgebaseId = false) (hs : body.stream = true) :
    (handler env body).2 =
      Response.streamAgentic
        ((agenticChunks env body).map (fun c => AgenticEvent.textDelta c.content) ++
          (agenticToolCalls env body).filterMap (fun tc =>
            (toolsMap env.normalizedTools tc.name).map
              (fun t => toolResultEvent env t tc))) ∧
    (∀ evs, (handler env body).2 = Response.streamAgentic evs →
      noTextDeltaAfterToolRes evs = true ∧
      ((∀ tc ∈ agenticToolCalls env body,
          (toolsMap env.normalizedTools tc.name).isSome = true) →
        (evs.filter AgenticEvent.isToolRes).length =
          (agenticToolCalls env body).length)) := by
  have h1 : handler env body = handleAgentic env body := by simp [handler, hid]
  have hmain : (handler env body).2 =
      Response.streamAgentic
        ((agenticChunks env body).map (fun c => AgenticEvent.textDelta c.content) ++
          (agenticToolCalls env body).filterMap (fun tc =>
            (toolsMap env.normalizedTools tc.name).map
              (fun t => toolResultEvent env t tc))) := by
    rw [h1]
    simp only [handleAgentic, hs, if_true]
    rw [agenticChunkLoop_eq_map, agenticToolLoop_events_eq_filterMap]
    simp [toolResultEvent]
  refine ⟨hmain, fun evs hevs => ?_⟩
  rw [hmain] at hevs
  obtain rfl := (Response.streamAgentic.inj hevs).symm
  have hx : ∀ e ∈ (agenticChunks env body).map (fun c => AgenticEvent.textDelta c.content),
      e.isTextDelta = true := by
    intro e he
    obtain ⟨c, _, rfl⟩ := List.mem_map.mp he
    rfl
  have hy : ∀ e ∈ (agenticToolCalls env body).filterMap (fun tc =>
      (toolsMap env.normalizedTools tc.name).map (fun t => toolResultEvent env t tc)),
      e.isToolRes = true := by
    intro e he
    obtain ⟨tc, _, hmap⟩ := List.mem_filterMap.mp he
    cases htm : toolsMap env.normalizedTools tc.name with
    | none => rw [htm] at hmap; cases hmap
    | some t =>
      rw [htm] at hmap
      obtain ⟨a, ha, rfl⟩ := Option.map_eq_some'.mp hmap
      rfl
  constructor
  · exact noTextDeltaAfterToolRes_append _ _ hx hy
  · intro hall
    rw [List.filter_append]
    have hxs : ((agenticChunks env body).map
        (fun c => AgenticEvent.textDelta c.content)).filter AgenticEvent.isToolRes = [] := by
      rw [List.filter_eq_nil_iff]
      intro e he
      obtain ⟨c, _, rfl⟩ := List.mem_map.mp he
      simp [AgenticEvent.isToolRes]
    have hys : ((agenticToolCalls env body).filterMap (fun tc =>
        (toolsMap env.normalizedTools tc.name).map
          (fun t => toolResultEvent env t tc))).filter AgenticEvent.isToolRes =
        (agenticToolCalls env body).filterMap (fun tc =>
          (toolsMap env.normalizedTools tc.name).map
            (fun t => toolResultEvent env t tc)) :=
      List.filter_eq_self.mpr (fun e he => hy e he)
    rw [hxs, hys, List.nil_append]
    apply filterMap_length_of_isSome
    intro tc htc
    have h3 := hall tc htc
    cases htm : toolsMap env.normalizedTools tc.name with
    | none => simp [htm] at h3
    | some t => rfl

/-- Environment for the C5 witness: two streamed chunks and one completed,
resolvable tool call. -/
def envC5 : Env :=
  { baseEnv with
    agentStream := fun _ => [⟨some "It is "⟩, ⟨some "now"⟩],
    gatherToolCalls := fun _ => [⟨"get_time", "call1", "tz=utc"⟩],
    normalizedTools := [⟨"get_time", "gets the time"⟩],
    invokeTool := fun _ tc => ⟨tc.id, "12:00"⟩ }

/-- Request for the C5 witness: agentic path, streaming. -/
def bodyC5 : RequestBody :=
  ⟨none, "m", "f", [⟨Role.user, "what time is it", none, false⟩], true⟩

/-- C5 witness: the concrete run emits both chunk events in order followed
by the tool-result event, and the order predicate holds. -/
theorem streaming_agentic_event_order_witness :
    (handler envC5 bodyC5).2 =
      Response.streamAgentic
        [AgenticEvent.textDelta (some "It is "), AgenticEvent.textDelta (some "now"),
          AgenticEvent.toolResult "call1" "12:00"] ∧
    noTextDeltaAfterToolRes
      [AgenticEvent.textDelta (some "It is "), AgenticEvent.textDelta (some "now"),
        AgenticEvent.toolResult "call1" "12:00"] = true := by
  have h := streaming_agentic_event_order envC5 bodyC5 rfl rfl
  have hm : (handler envC5 bodyC5).2 =
      Response.streamAgentic
        [AgenticEvent.textDelta (some "It is "), AgenticEvent.textDelta (some "now"),
          AgenticEvent.toolResult "call1" "12:00"] := h.1.trans (by decide)
  exact ⟨hm, ((h.2 _ hm).1)⟩

/-! ### Knowledge-base branch lemmas -/

theorem handler_eq_handleKB (env : Env) (body : RequestBody) (n : Int)
    (hid : body.knowledgebaseId = some n) (hn : n ≠ 0) :
    handler env body = handleKB env body n := by
  simp [handler, hid, numTruthy, bne_iff_ne, hn]

theorem responseEvidence_streamKB (chunks : List (Option String)) (docs : List Document) :
    responseEvidence (Response.streamKB (kbStreamEvents chunks docs)) = some docs := by
  simp only [responseEvidence, kbStreamEvents, List.filterMap_append]
  have h : (chunks.filterMap (fun c => c.map KBEvent.textDelta)).filterMap
      KBEvent.docsPayload = [] := by
    induction chunks with
    | nil => rfl
    | cons c rest ih => cases c <;> simp [KBEvent.docsPayload, ih]
  rw [h]
  rfl

/-- C1 counterexample: with a reranker configured (Cohere key and model set)
and five retrieved documents, the non-streaming response's `relevant_docs`
field carries all five documents — the claim's ≤ 4 bound fails on the
non-streaming path because the source returns the raw `relevant_docs`, not
`rerankedDocuments`. -/
def envC1 : Env :=
  { baseEnv with
    lookupKB := fun _ => some ⟨7, "kb", some "embedder"⟩,
    retrieve := fun _ =>
      [⟨"d1", ""⟩, ⟨"d2", ""⟩, ⟨"d3", ""⟩, ⟨"d4", ""⟩, ⟨"d5", ""⟩],
    vars := ⟨some "cohere-key", none, some "rerank-english-v3", none⟩ }

/-- Request for the C1 counterexample: knowledge-base path, non-streaming. -/
def bodyC1 : RequestBody :=
  ⟨some 7, "m", "f", [⟨Role.user, "what is X", none, false⟩], false⟩

/-- Request for the C1 witness: same request, streaming. -/
def bodyC1s : RequestBody :=
  ⟨some 7, "m", "f", [⟨Role.user, "what is X", none, false⟩], true⟩

/-- C1 counterexample (see `envC1`): reranker configured, yet the
non-streaming `relevant_docs` field has five documents. -/
theorem nostream_evidence_unbounded_cex :
    rerankerConfigured envC1.vars = true ∧
    (responseEvidence (handler envC1 bodyC1).2).map List.length = some 5 := by
  decide

/-- C1 amended: on a valid knowledge-base request the streaming
`relevant_documents` event carries at most 4 documents when a reranker is
configured and the retriever's output unchanged otherwise; the
non-streaming `relevant_docs` field always carries the retriever's raw
output — unbounded by this layer — regardless of reranker configuration
(the reranked list is used only for prompt context). -/
theorem evidence_size_policy (env : Env) (body : RequestBody) (n : Int)
    (kb : KnowledgeBase) (lastMsg : Message)
    (hid : body.knowledgebaseId = some n) (hn : n ≠ 0)
    (hkb : env.lookupKB n = some kb)
    (hlast : body.messages.getLast? = some lastMsg) :
    (body.stream = false →
      responseEvidence (handler env body).2 =
        some (env.retrieve (retrievalQuery env body lastMsg))) ∧
    (body.stream = true → rerankerConfigured env.vars = true →
      ∃ docs, responseEvidence (handler env body).2 = some docs ∧ docs.length ≤ 4) ∧
    (body.stream = true → rerankerConfigured env.vars = false →
      responseEvidence (handler env body).2 =
        some (env.retrieve (retrievalQuery env body lastMsg))) := by
  have hh := handler_eq_handleKB env body n hid hn
  refine ⟨?_, ?_, ?_⟩
  · intro hs
    rw [hh]
    simp [handleKB, hkb, hlast, hs, responseEvidence, retrievalQuery]
  · intro hs hconf
    rw [hh]
    refine ⟨compressDocuments env.rerankScore
      (env.retrieve (retrievalQuery env body lastMsg)) (retrievalQuery env body lastMsg) 4,
      ?_, ?_⟩
    · simp only [handleKB, hkb, hlast, hs, hconf, if_true]
      rw [responseEvidence_streamKB]
      simp [retrievalQuery]
    · simp [compressDocuments]
  · intro hs hconf
    rw [hh]
    simp only [handleKB, hkb, hlast, hs, hconf, if_true, if_false, Bool.false_eq_true]
    rw [responseEvidence_streamKB]
    simp [retrievalQuery]

/-- C1 amended witness: the concrete streaming run with the reranker
configured yields a payload of length ≤ 4, by applying the theorem. -/
theorem evidence_size_policy_witness :
    ∃ docs, responseEvidence (handler envC1 bodyC1s).2 = some docs ∧ docs.length ≤ 4 := by
  have h := evidence_size_policy envC1 bodyC1s 7 ⟨7, "kb", some "embedder"⟩
    ⟨Role.user, "what is X", none, false⟩ rfl (by decide) rfl (by decide)
  exact h.2.1 rfl rfl

/-- C2: on the knowledge-base path, when the reformulation collaborator
fails (modelled per the spec as a non-throwing error outcome) or returns an
empty output, the retrieval query is the last request message's content
verbatim, the retriever is actually called with it, and the request still
completes with a normal knowledge-base response rather than aborting. -/
theorem coref_failure_falls_back (env : Env) (body : RequestBody) (n : Int)
    (kb : KnowledgeBase) (lastMsg : Message)
    (hid : body.knowledgebaseId = some n) (hn : n ≠ 0)
    (hkb : env.lookupKB n = some kb)
    (hlast : body.messages.getLast? = some lastMsg)
    (hco : env.coref lastMsg.content (normalizeMessages body.messages)
        env.vars.OPENAI_API_KEY = CorefOutcome.failed ∨
      env.coref lastMsg.content (normalizeMessages body.messages)
        env.vars.OPENAI_API_KEY = CorefOutcome.ok "") :
    retrievalQuery env body lastMsg = lastMsg.content ∧
    Effect.retrieveCall lastMsg.content ∈ (handler env body).1 ∧
    ((∃ c docs, (handler env body).2 = Response.json c docs) ∨
      (∃ evs, (handler env body).2 = Response.streamKB evs)) := by
  have hq : retrievalQuery env body lastMsg = lastMsg.content := by
    rcases hco with h | h <;>
      simp [retrievalQuery, h, reformulate, CorefOutcome.output, jsOrString]
  have hq2 : reformulate
      (env.coref lastMsg.content (normalizeMessages body.messages) env.vars.OPENAI_API_KEY)
      lastMsg.content = lastMsg.content := hq
  have hh := handler_eq_handleKB env body n hid hn
  refine ⟨hq, ?_, ?_⟩
  · rw [hh]
    cases hs : body.stream with
    | false =>
      by_cases hc : rerankerConfigured env.vars <;>
        simp [handleKB, hkb, hlast, hs, hq2, hc]
    | true =>
      by_cases hc : rerankerConfigured env.vars <;>
        simp [handleKB, hkb, hlast, hs, hq2, hc]
  · rw [hh]
    cases hs : body.stream with
    | false =>
      left
      simp [handleKB, hkb, hlast, hs]
    | true =>
      right
      simp [handleKB, hkb, hlast, hs]

/-- Environment for the C2 witness: a knowledge base exists and the
reformulation collaborator fails. -/
def envC2 : Env :=
  { baseEnv with
    lookupKB := fun _ => some ⟨3, "kb", none⟩,
    coref := fun _ _ _ => CorefOutcome.failed,
    retrieve := fun _ => [⟨"d1", ""⟩] }

/-- Request for the C2 witness: knowledge-base path, non-streaming. -/
def bodyC2 : RequestBody :=
  ⟨some 3, "m", "f", [⟨Role.user, "who is he", none, false⟩], false⟩

/-- C2 witness: in the concrete failing-reformulator run the retriever is
called with the last message verbatim and a normal response is produced. -/
theorem coref_failure_falls_back_witness :
    retrievalQuery envC2 bodyC2 ⟨Role.user, "who is he", none, false⟩ = "who is he" ∧
    Effect.retrieveCall "who is he" ∈ (handler envC2 bodyC2).1 := by
  have h := coref_failure_falls_back envC2 bodyC2 3 ⟨3, "kb", none⟩
    ⟨Role.user, "who is he", none, false⟩ rfl (by decide) rfl (by decide) (Or.inl rfl)
  exact ⟨h.1, h.2.1⟩

/-- C10: the reformulated query is used only for retrieval (and reranking);
the question slot of the prompt handed to the chat model receives the
original last-message content in both the non-streaming and streaming
branches, while the retriever is called with the reformulated query. -/
theorem question_slot_gets_original_query (env : Env) (body : RequestBody) (n : Int)
    (kb : KnowledgeBase) (lastMsg : Message)
    (hid : body.knowledgebaseId = some n) (hn : n ≠ 0)
    (hkb : env.lookupKB n = some kb)
    (hlast : body.messages.getLast? = some lastMsg) :
    Effect.retrieveCall (retrievalQuery env body lastMsg) ∈ (handler env body).1 ∧
    (body.stream = false →
      Effect.chatInvokeCall
        (renderTemplate
          (formatDocumentsAsString
            (if rerankerConfigured env.vars then
              compressDocuments env.rerankScore
                (env.retrieve (retrievalQuery env body lastMsg))
                (retrievalQuery env body lastMsg) 4
            else env.retrieve (retrievalQuery env body lastMsg)))
          (serializeMessages body.messages) lastMsg.content) ∈ (handler env body).1) ∧
    (body.stream = true →
      Effect.chatStreamCall
        (renderTemplate
          (formatDocumentsAsString
            (if rerankerConfigured env.vars then
              compressDocuments env.rerankScore
                (env.retrieve (retrievalQuery env body lastMsg))
                (retrievalQuery env body lastMsg) 4
            else env.retrieve (retrievalQuery env body lastMsg)))
          (serializeMessages body.messages) lastMsg.content) ∈ (handler env body).1) := by
  have hh := handler_eq_handleKB env body n hid hn
  refine ⟨?_, ?_, ?_⟩
  · rw [hh]
    cases hs : body.stream with
    | false =>
      by_cases hc : rerankerConfigured env.vars <;>
        simp [handleKB, hkb, hlast, hs, hc, retrievalQuery]
    | true =>
      by_cases hc : rerankerConfigured env.vars <;>
        simp [handleKB, hkb, hlast, hs, hc, retrievalQuery]
  · intro hs
    rw [hh]
    by_cases hc : rerankerConfigured env.vars <;>
      simp [handleKB, hkb, hlast, hs, hc, retrievalQuery]
  · intro hs
    rw [hh]
    by_cases hc : rerankerConfigured env.vars <;>
      simp [handleKB, hkb, hlast, hs, hc, retrievalQuery]

/-- C10 witness: in a concrete run where reformulation rewrites the query,
the retriever receives the rewritten query while the prompt's question slot
receives the original message. -/
def envC10 : Env :=
  { baseEnv with
    lookupKB := fun _ => some ⟨5, "kb", some "embedder"⟩,
    coref := fun _ _ _ => CorefOutcome.ok "who is Ada Lovelace",
    retrieve := fun _ => [⟨"d1", ""⟩] }

/-- Request for the C10 witness: knowledge-base path, non-streaming. -/
def bodyC10 : RequestBody :=
  ⟨some 5, "m", "f", [⟨Role.user, "who is she", none, false⟩], false⟩

/-- C10 witness: applying the theorem at the concrete run. -/
theorem question_slot_gets_original_query_witness :
    Effect.retrieveCall "who is Ada Lovelace" ∈ (handler envC10 bodyC10).1 ∧
    Effect.chatInvokeCall
      (renderTemplate (formatDocumentsAsString [⟨"d1", ""⟩])
        (serializeMessages bodyC10.messages) "who is she") ∈ (handler envC10 bodyC10).1 := by
  have h := question_slot_gets_original_query envC10 bodyC10 5 ⟨5, "kb", some "embedder"⟩
    ⟨Role.user, "who is she", none, false⟩ rfl (by decide) rfl (by decide)
  refine ⟨h.1, ?_⟩
  have h2 := h.2.1 rfl
  simpa [retrievalQuery, reformulate, CorefOutcome.output, jsOrString, envC10,
    rerankerConfigured, strTruthy, baseEnv] using h2

end ChatHandler
